import Mathlib

/-!
# Verification of the multi-tenant SaaS RAG platform backend

Shallow embedding of the backend's pure logic, translated from the Python
sources under `backend/app/`, together with theorems settling the spec
claims about role-based access control, tenant-scoped vector upserts,
deterministic chunk ids, the streaming multipart size ceiling, ingestion
duplicate handling, the upload allowlist, the LLM circuit breaker, the
worker pipeline idempotency gate, and the chunk-size enforcement passes.

Modelling conventions:
  * Python `str` values become Lean `String` (or `List Char` where Python
    indexing/slicing semantics matter).
  * Python dicts consulted by key become association lists with first-match
    lookup (keys are unique in all modelled call sites).
  * Raised exceptions become `Except` error values; HTTP errors carry their
    status code.
  * `time.monotonic()` is modelled as a natural-number clock in seconds;
    the circuit-breaker logic only compares clock values and adds the
    60-second window, so no fractional time is needed.
-/

namespace Rbac

/-- `_ROLE_ORDER` from `app/auth/rbac.py`: role name to privilege level;
`dict.get` misses are handled by the callers' defaults. -/
def roleOrder (role : String) : Option Int :=
  if role = "viewer" then some 0
  else if role = "member" then some 1
  else if role = "admin" then some 2
  else if role = "owner" then some 3
  else none

/-- `_has_role` from `app/auth/rbac.py`: unknown user roles default to level
`-1`, unknown required roles default to level `999`. -/
def hasRole (userRole requiredRole : String) : Bool :=
  (roleOrder userRole).getD (-1) ≥ (roleOrder requiredRole).getD 999

/-- `TokenPayload` from `app/auth/token.py` (the UUID tenant id is kept as
its string form). -/
structure TokenPayload where
  sub       : String
  email     : String
  tenantId  : String
  role      : String
  exp       : Int
  iss       : String
deriving DecidableEq

/-- Outcome of a FastAPI dependency: either the payload is passed through or
an `HTTPException` with a status code and detail message is raised. -/
inductive AuthResult where
  | ok (user : TokenPayload)
  | httpError (statusCode : Nat) (detail : String)
deriving DecidableEq

/-- The detail string built by `require_role._dependency` on denial. -/
def forbiddenDetail (minimumRole userRole : String) : String :=
  "Insufficient permissions. Required: " ++ minimumRole ++
    ", your role: " ++ userRole ++ "."

/-- `require_role(minimum_role)` applied to a verified `TokenPayload`
(`app/auth/rbac.py`): 403 unless `_has_role(user.role, minimum_role)`. -/
def require_role (minimumRole : String) (user : TokenPayload) : AuthResult :=
  if hasRole user.role minimumRole then
    .ok user
  else
    .httpError 403 (forbiddenDetail minimumRole user.role)

/-- The rank function as written in the spec:
viewer=0 < member=1 < admin=2 < owner=3. -/
def specRank (role : String) : Nat :=
  if role = "viewer" then 0
  else if role = "member" then 1
  else if role = "admin" then 2
  else 3

/-- The four role names of the data model. -/
def knownRoles : List String := ["viewer", "member", "admin", "owner"]

/-- Any user role maps to a level at most 3 under `_ROLE_ORDER.get(role, -1)`. -/
theorem roleOrder_getD_le_three (s : String) : (roleOrder s).getD (-1) ≤ 3 := by
  unfold roleOrder
  repeat' split
  all_goals simp

end Rbac

/-- C2: for roles `r`, `m` drawn from {viewer, member, admin, owner} with
ranks viewer=0, member=1, admin=2, owner=3, `require_role(m)` passes a
principal of role `r` through iff rank r ≥ rank m, and otherwise raises
HTTP 403. -/
theorem rbac_require_role_rank_iff
    (r m : String) (u : Rbac.TokenPayload)
    (hr : r ∈ Rbac.knownRoles) (hm : m ∈ Rbac.knownRoles) (hu : u.role = r) :
    (Rbac.require_role m u = .ok u ↔ Rbac.specRank r ≥ Rbac.specRank m)
    ∧ (Rbac.specRank r < Rbac.specRank m →
        Rbac.require_role m u = .httpError 403 (Rbac.forbiddenDetail m r)) := by
  simp only [Rbac.knownRoles, List.mem_cons, List.not_mem_nil, or_false] at hr hm
  rcases hr with rfl | rfl | rfl | rfl <;>
    rcases hm with rfl | rfl | rfl | rfl <;>
      simp [Rbac.require_role, Rbac.hasRole, Rbac.roleOrder, Rbac.specRank,
        Rbac.forbiddenDetail, hu]

/-- Witness for C2 at a concrete principal: an admin passes a member gate,
and a viewer is rejected by an owner gate with 403. -/
theorem rbac_require_role_rank_iff_witness :
    (Rbac.require_role "member"
        ⟨"u1", "a@b.c", "t1", "admin", 0, "iss"⟩ =
      .ok ⟨"u1", "a@b.c", "t1", "admin", 0, "iss"⟩
      ↔ Rbac.specRank "admin" ≥ Rbac.specRank "member")
    ∧ (Rbac.specRank "viewer" < Rbac.specRank "owner" →
        Rbac.require_role "owner"
            ⟨"u2", "d@e.f", "t1", "viewer", 0, "iss"⟩ =
          .httpError 403 (Rbac.forbiddenDetail "owner" "viewer")) :=
  ⟨(rbac_require_role_rank_iff "admin" "member"
      ⟨"u1", "a@b.c", "t1", "admin", 0, "iss"⟩
      (by decide) (by decide) rfl).1,
   (rbac_require_role_rank_iff "viewer" "owner"
      ⟨"u2", "d@e.f", "t1", "viewer", 0, "iss"⟩
      (by decide) (by decide) rfl).2⟩

/-- C10: a `require_role` gate built with a role name outside
{viewer, member, admin, owner} denies every principal with HTTP 403:
the unknown required role maps to level 999 while any principal role maps
to at most 3 (unknown principal roles map to -1), so the check fails closed. -/
theorem rbac_unknown_required_role_fails_closed
    (m : String) (hm : m ∉ Rbac.knownRoles) (u : Rbac.TokenPayload) :
    Rbac.require_role m u = .httpError 403 (Rbac.forbiddenDetail m u.role)
    ∧ (Rbac.roleOrder m).getD 999 = 999
    ∧ (Rbac.roleOrder u.role).getD (-1) ≤ 3 := by
  simp only [Rbac.knownRoles, List.mem_cons, List.not_mem_nil, or_false] at hm
  push_neg at hm
  obtain ⟨h1, h2, h3, h4⟩ := hm
  have horder : Rbac.roleOrder m = none := by
    unfold Rbac.roleOrder
    simp [h1, h2, h3, h4]
  refine ⟨?_, by simp [horder], Rbac.roleOrder_getD_le_three u.role⟩
  unfold Rbac.require_role Rbac.hasRole
  rw [horder]
  have := Rbac.roleOrder_getD_le_three u.role
  simp only [Option.getD_none]
  have hlt : ¬ ((Rbac.roleOrder u.role).getD (-1) ≥ (999 : Int)) := by omega
  simp [hlt]

/-- Witness for C10: the misconfigured gate `require_role "superadmin"`
rejects even an owner with 403. -/
theorem rbac_unknown_required_role_fails_closed_witness :
    Rbac.require_role "superadmin" ⟨"u3", "g@h.i", "t1", "owner", 0, "iss"⟩ =
      .httpError 403 (Rbac.forbiddenDetail "superadmin" "owner")
    ∧ (Rbac.roleOrder "superadmin").getD 999 = 999
    ∧ (Rbac.roleOrder "owner").getD (-1) ≤ 3 :=
  rbac_unknown_required_role_fails_closed "superadmin" (by decide)
    ⟨"u3", "g@h.i", "t1", "owner", 0, "iss"⟩

namespace Fallback

/-- `Provider` enum from `app/llm/router.py`. -/
inductive Provider where
  | openai
  | azureOpenai
  | awsBedrock
  | ollama
deriving DecidableEq

/-- `_CircuitState` from `app/llm/fallback.py`; `open_until` is a monotonic
clock value in seconds. -/
structure CircuitState where
  failures  : Nat
  openUntil : Nat
deriving DecidableEq

/-- `OPEN_THRESHOLD` class constant. -/
def OPEN_THRESHOLD : Nat := 3

/-- `RESET_SECONDS` class constant. -/
def RESET_SECONDS : Nat := 60

/-- Fresh `_CircuitState()` as built for `_CIRCUIT_STATES`. -/
def initCircuit : CircuitState := ⟨0, 0⟩

/-- `_is_circuit_open` — returns the decision together with the possibly
mutated state (it zeroes `failures` once the window has elapsed). -/
def isCircuitOpen (s : CircuitState) (now : Nat) : Bool × CircuitState :=
  if s.failures < OPEN_THRESHOLD then (false, s)
  else if s.openUntil ≤ now then (false, { s with failures := 0 })
  else (true, s)

/-- `_record_failure`. -/
def recordFailure (s : CircuitState) (now : Nat) : CircuitState :=
  { failures := s.failures + 1, openUntil := now + RESET_SECONDS }

/-- `_record_success`. -/
def recordSuccess (s : CircuitState) : CircuitState :=
  { s with failures := 0 }

/-- Slice of `ModelSpec` from `app/llm/router.py` used by the fallback loop. -/
structure ModelSpec where
  modelId  : String
  provider : Provider
deriving DecidableEq

/-- Outcome of one provider attempt inside `FallbackChain.ainvoke`
(`llm.ainvoke` under `asyncio.wait_for`). -/
inductive Outcome where
  | success (content : String)
  | timeout
  | retryableErr (name : String)
  | fatalErr (name : String)
deriving DecidableEq

/-- Result of `FallbackChain.ainvoke`: the content, a re-raised
non-retryable exception, or `RuntimeError` after exhausting the chain. -/
inductive InvokeResult where
  | ok (content : String)
  | raised (name : String)
  | allFailed
deriving DecidableEq

/-- The provider-attempt loop of `FallbackChain.ainvoke`: walks the spec
list, skips providers whose circuit is open, records failures/successes,
and stops at the first success or non-retryable error. Returns the result,
the final circuit states, and the list of providers actually attempted.
The LLM call itself is abstracted by `oracle`, and the whole call runs at
one clock instant `now`. -/
def ainvoke (oracle : Provider → Outcome) (now : Nat) :
    List ModelSpec → (Provider → CircuitState) →
    InvokeResult × (Provider → CircuitState) × List Provider
  | [], states => (.allFailed, states, [])
  | spec :: rest, states =>
    let d := isCircuitOpen (states spec.provider) now
    let states1 := Function.update states spec.provider d.2
    if d.1 then
      ainvoke oracle now rest states1
    else
      match oracle spec.provider with
      | .success c =>
          (.ok c, Function.update states1 spec.provider (recordSuccess d.2),
            [spec.provider])
      | .fatalErr n =>
          (.raised n, states1, [spec.provider])
      | .timeout =>
          let r := ainvoke oracle now rest
            (Function.update states1 spec.provider (recordFailure d.2 now))
          (r.1, r.2.1, spec.provider :: r.2.2)
      | .retryableErr _ =>
          let r := ainvoke oracle now rest
            (Function.update states1 spec.provider (recordFailure d.2 now))
          (r.1, r.2.1, spec.provider :: r.2.2)

/-- An open circuit stays untouched by `_is_circuit_open` while the window
has not elapsed, so the skip decision is stable across the chain walk:
a provider whose circuit test is open at `now` is never attempted. -/
theorem ainvoke_skips_open_provider
    (oracle : Provider → Outcome) (now : Nat) (p : Provider) :
    ∀ (specs : List ModelSpec) (states : Provider → CircuitState),
      (isCircuitOpen (states p) now).1 = true →
      p ∉ (ainvoke oracle now specs states).2.2 := by
  intro specs
  induction specs with
  | nil => intro states _; simp [ainvoke]
  | cons spec rest ih =>
    intro states hopen
    have hstable : ∀ q : Provider,
        (isCircuitOpen (Function.update states spec.provider
            (isCircuitOpen (states spec.provider) now).2 q) now).1 = true →
          True := fun _ _ => trivial
    by_cases hp : spec.provider = p
    · subst hp
      have hval : isCircuitOpen (states spec.provider) now =
          (true, states spec.provider) := by
        unfold isCircuitOpen at hopen ⊢
        by_cases h1 : (states spec.provider).failures < OPEN_THRESHOLD
        · simp [h1] at hopen
        · by_cases h2 : (states spec.provider).openUntil ≤ now
          · simp [h1, h2] at hopen
          · simp [h1, h2]
      unfold ainvoke
      rw [hval]
      simp only
      have hupd : Function.update states spec.provider (states spec.provider) =
          states := Function.update_eq_self _ _
      rw [hupd]
      exact ih states hopen
    · unfold ainvoke
      simp only
      have hkeep : ∀ s' : CircuitState,
          Function.update states spec.provider s' p = states p := by
        intro s'
        exact Function.update_noteq (fun h => hp h.symm) _ _
      set d := isCircuitOpen (states spec.provider) now with hd
      by_cases hdec : d.1 = true
      · rw [if_pos hdec]
        apply ih
        rw [hkeep]; exact hopen
      · rw [if_neg hdec]
        cases horacle : oracle spec.provider with
        | success c =>
            simp only [horacle, List.mem_singleton]
            exact fun h => hp h.symm
        | fatalErr n =>
            simp only [horacle, List.mem_singleton]
            exact fun h => hp h.symm
        | timeout =>
            simp only [horacle, List.mem_cons]
            rintro (h | h)
            · exact hp h.symm
            · exact absurd h (ih _ (by rw [Function.update_noteq (fun hq => hp hq.symm), hkeep]; exact hopen))
        | retryableErr n =>
            simp only [horacle, List.mem_cons]
            rintro (h | h)
            · exact hp h.symm
            · exact absurd h (ih _ (by rw [Function.update_noteq (fun hq => hp hq.symm), hkeep]; exact hopen))

end Fallback

/-- C7: after three consecutive `_record_failure` calls (the last at time
t3) on a provider whose counter started at zero, the circuit holds 3
failures and stays open until t3+60: any `ainvoke` strictly inside that
window skips the provider entirely; the first check at or after t3+60
reports the circuit closed and zeroes the counter (half-open), and a
recorded success keeps the failure counter at zero. -/
theorem fallback_circuit_breaker
    (s0 : Fallback.CircuitState) (h0 : s0.failures = 0)
    (t1 t2 t3 t : Nat)
    (specs : List Fallback.ModelSpec)
    (oracle : Fallback.Provider → Fallback.Outcome)
    (states : Fallback.Provider → Fallback.CircuitState)
    (p : Fallback.Provider)
    (hs : states p =
      Fallback.recordFailure
        (Fallback.recordFailure (Fallback.recordFailure s0 t1) t2) t3) :
    ((states p).failures = 3 ∧ (states p).openUntil = t3 + 60)
    ∧ (t < t3 + 60 →
        (Fallback.isCircuitOpen (states p) t).1 = true
        ∧ p ∉ (Fallback.ainvoke oracle t specs states).2.2)
    ∧ (t3 + 60 ≤ t →
        Fallback.isCircuitOpen (states p) t =
          (false, { states p with failures := 0 })
        ∧ (Fallback.recordSuccess
            (Fallback.isCircuitOpen (states p) t).2).failures = 0) := by
  have hval : states p = ⟨3, t3 + 60⟩ := by
    rw [hs]
    simp [Fallback.recordFailure, Fallback.RESET_SECONDS, h0]
  refine ⟨by rw [hval]; exact ⟨rfl, rfl⟩, ?_, ?_⟩
  · intro ht
    have hopen : (Fallback.isCircuitOpen (states p) t).1 = true := by
      rw [hval]
      unfold Fallback.isCircuitOpen Fallback.OPEN_THRESHOLD
      have h1 : ¬ (3 < 3) := by omega
      have h2 : ¬ (t3 + 60 ≤ t) := by omega
      simp [h1, h2]
    exact ⟨hopen, Fallback.ainvoke_skips_open_provider oracle t p specs states hopen⟩
  · intro ht
    have hclosed : Fallback.isCircuitOpen (states p) t =
        (false, { states p with failures := 0 }) := by
      rw [hval]
      unfold Fallback.isCircuitOpen Fallback.OPEN_THRESHOLD
      have h1 : ¬ (3 < 3) := by omega
      simp [h1, ht]
    exact ⟨hclosed, by rw [hclosed]; rfl⟩

/-- Witness for C7: three failures at times 5, 6, 7 open the circuit for a
call at time 30 (the primary is skipped by the fallback chain), while a
call at time 67 finds it half-open with the counter reset. -/
theorem fallback_circuit_breaker_witness :
    (((fun q => if q = Fallback.Provider.openai then
        (⟨3, 67⟩ : Fallback.CircuitState) else Fallback.initCircuit)
          Fallback.Provider.openai).failures = 3
      ∧ ((fun q => if q = Fallback.Provider.openai then
        (⟨3, 67⟩ : Fallback.CircuitState) else Fallback.initCircuit)
          Fallback.Provider.openai).openUntil = 7 + 60)
    ∧ ((30 : Nat) < 7 + 60 →
        (Fallback.isCircuitOpen ((fun q => if q = Fallback.Provider.openai then
            (⟨3, 67⟩ : Fallback.CircuitState) else Fallback.initCircuit)
          Fallback.Provider.openai) 30).1 = true
        ∧ Fallback.Provider.openai ∉
          (Fallback.ainvoke (fun _ => .success "hi") 30
            [⟨"gpt-4o", .openai⟩, ⟨"llama3.1-8b", .ollama⟩]
            (fun q => if q = Fallback.Provider.openai then
              (⟨3, 67⟩ : Fallback.CircuitState) else Fallback.initCircuit)).2.2)
    ∧ (7 + 60 ≤ (30 : Nat) →
        Fallback.isCircuitOpen ((fun q => if q = Fallback.Provider.openai then
            (⟨3, 67⟩ : Fallback.CircuitState) else Fallback.initCircuit)
          Fallback.Provider.openai) 30 =
          (false, { (⟨3, 67⟩ : Fallback.CircuitState) with failures := 0 })
        ∧ (Fallback.recordSuccess
            (Fallback.isCircuitOpen
              ((fun q => if q = Fallback.Provider.openai then
                (⟨3, 67⟩ : Fallback.CircuitState) else Fallback.initCircuit)
              Fallback.Provider.openai) 30).2).failures = 0) := by
  have h := fallback_circuit_breaker Fallback.initCircuit rfl 5 6 7 30
    [⟨"gpt-4o", .openai⟩, ⟨"llama3.1-8b", .ollama⟩]
    (fun _ => .success "hi")
    (fun q => if q = Fallback.Provider.openai then
      (⟨3, 67⟩ : Fallback.CircuitState) else Fallback.initCircuit)
    Fallback.Provider.openai (by decide)
  exact h

namespace Multipart

/-- `MAX_FILE_SIZE_BYTES` from `app/schemas/documents.py` (50 MB). -/
def MAX_FILE_SIZE_BYTES : Nat := 50 * 1024 * 1024

/-- `CHUNK_SIZE` from `app/storage/multipart.py` (5 MB part size). -/
def CHUNK_SIZE : Nat := 5 * 1024 * 1024

/-- Errors raised by `streaming_multipart_upload` (HTTP exceptions). -/
inductive UploadError where
  | payloadTooLarge (sizeBytes : Nat)
  | missingFile
deriving DecidableEq

/-- HTTP status carried by each error. -/
def UploadError.status : UploadError → Nat
  | .payloadTooLarge _ => 413
  | .missingFile => 400

/-- The part-upload loop of `streaming_multipart_upload`
(`app/storage/multipart.py`): for each chunk the cumulative byte count is
bumped and checked against the 50 MB ceiling BEFORE the part is sent; on
success it returns the final `(total_bytes, part_number)`. The stream is
abstracted to the list of chunk sizes produced by `_iter_chunks` (all
nonempty: the iterator stops at the first empty read). -/
def uploadParts : List Nat → Nat → Nat → Except UploadError (Nat × Nat)
  | [], total, partNumber => .ok (total, partNumber)
  | c :: rest, total, partNumber =>
    let total1 := total + c
    if total1 > MAX_FILE_SIZE_BYTES then
      .error (.payloadTooLarge total1)
    else
      uploadParts rest total1 (partNumber + 1)

/-- `streaming_multipart_upload` byte-accounting skeleton: runs the part
loop, applies the empty-file guard, and returns the outcome paired with
whether `abort_multipart_upload` was invoked (it is called on every raised
error, and only then). S3 itself is abstracted as succeeding. -/
def streamingMultipartUpload (chunkSizes : List Nat) :
    Except UploadError (Nat × Nat) × Bool :=
  match uploadParts chunkSizes 0 0 with
  | .error e => (.error e, true)
  | .ok (total, parts) =>
    if parts = 0 ∨ total = 0 then (.error .missingFile, true)
    else (.ok (total, parts), false)

/-- The part loop succeeds exactly on streams that fit the ceiling. -/
theorem uploadParts_ok_of_le (l : List Nat) :
    ∀ total partNumber, total + l.sum ≤ MAX_FILE_SIZE_BYTES →
      uploadParts l total partNumber =
        .ok (total + l.sum, partNumber + l.length) := by
  induction l with
  | nil => intro total partNumber _; simp [uploadParts]
  | cons c rest ih =>
    intro total partNumber h
    have hsum : total + (c :: rest).sum = total + c + rest.sum := by
      simp [List.sum_cons]; omega
    have hle : ¬ (total + c > MAX_FILE_SIZE_BYTES) := by
      have : total + c + rest.sum ≤ MAX_FILE_SIZE_BYTES := by omega
      omega
    unfold uploadParts
    simp only [hle, if_false]
    rw [ih (total + c) (partNumber + 1) (by omega)]
    simp [List.sum_cons, List.length_cons]
    constructor <;> omega

/-- The part loop fails with `payloadTooLarge` as soon as the cumulative
count exceeds the ceiling. -/
theorem uploadParts_error_of_gt (l : List Nat) :
    ∀ total partNumber, total ≤ MAX_FILE_SIZE_BYTES →
      total + l.sum > MAX_FILE_SIZE_BYTES →
      ∃ n, uploadParts l total partNumber = .error (.payloadTooLarge n)
        ∧ n > MAX_FILE_SIZE_BYTES := by
  induction l with
  | nil =>
    intro total partNumber hle hgt
    simp [List.sum_nil] at hgt
    omega
  | cons c rest ih =>
    intro total partNumber hle hgt
    unfold uploadParts
    by_cases hc : total + c > MAX_FILE_SIZE_BYTES
    · exact ⟨total + c, by simp [hc], hc⟩
    · simp only [hc, if_false]
      apply ih
      · omega
      · simp [List.sum_cons] at hgt ⊢
        omega

end Multipart

/-- C4: the streaming multipart uploader enforces the 52,428,800-byte
ceiling cumulatively across parts: a stream totalling exactly 52,428,800
bytes completes successfully (no abort), while a stream whose cumulative
count exceeds 52,428,800 bytes fails with PayloadTooLarge (HTTP 413) and
the multipart transaction is aborted. -/
theorem multipart_cumulative_size_ceiling (chunkSizes : List Nat) :
    (chunkSizes.sum = 52428800 →
      Multipart.streamingMultipartUpload chunkSizes =
        (.ok (52428800, chunkSizes.length), false))
    ∧ (chunkSizes.sum > 52428800 →
      ∃ n, Multipart.streamingMultipartUpload chunkSizes =
          (.error (.payloadTooLarge n), true)
        ∧ (Multipart.UploadError.payloadTooLarge n).status = 413) := by
  have hmax : Multipart.MAX_FILE_SIZE_BYTES = 52428800 := by
    unfold Multipart.MAX_FILE_SIZE_BYTES; norm_num
  constructor
  · intro hsum
    have h := Multipart.uploadParts_ok_of_le chunkSizes 0 0 (by omega)
    have hlen : chunkSizes.length ≠ 0 := by
      intro h0
      rw [List.length_eq_zero] at h0
      rw [h0] at hsum
      simp at hsum
    unfold Multipart.streamingMultipartUpload
    rw [h]
    simp only [Nat.zero_add, hsum]
    have hguard : ¬ (chunkSizes.length = 0 ∨ (52428800 : Nat) = 0) := by
      push_neg
      exact ⟨hlen, by norm_num⟩
    have hne : chunkSizes ≠ [] := by
      intro h0
      rw [h0] at hsum
      simp at hsum
    simp [hguard, hne]
  · intro hsum
    obtain ⟨n, hrun, hn⟩ :=
      Multipart.uploadParts_error_of_gt chunkSizes 0 0 (by omega) (by omega)
    refine ⟨n, ?_, rfl⟩
    unfold Multipart.streamingMultipartUpload
    rw [hrun]

/-- Witness for C4: ten 5 MB parts followed by the 262,144-byte remainder
total exactly 52,428,800 and are accepted; one extra byte is rejected 413
with the transaction aborted. -/
theorem multipart_cumulative_size_ceiling_witness :
    (Multipart.streamingMultipartUpload
        [5242880, 5242880, 5242880, 5242880, 5242880,
         5242880, 5242880, 5242880, 5242880, 5242880] =
      (.ok (52428800, 10), false))
    ∧ ∃ n, Multipart.streamingMultipartUpload
          [5242880, 5242880, 5242880, 5242880, 5242880,
           5242880, 5242880, 5242880, 5242880, 5242880, 1] =
        (.error (.payloadTooLarge n), true)
        ∧ (Multipart.UploadError.payloadTooLarge n).status = 413 :=
  ⟨(multipart_cumulative_size_ceiling
      [5242880, 5242880, 5242880, 5242880, 5242880,
       5242880, 5242880, 5242880, 5242880, 5242880]).1 (by norm_num),
   (multipart_cumulative_size_ceiling
      [5242880, 5242880, 5242880, 5242880, 5242880,
       5242880, 5242880, 5242880, 5242880, 5242880, 1]).2 (by norm_num)⟩

namespace VectorStore

/-- `VectorRecord` from `app/vectorstore/base.py`. Metadata is the
association-list model of the Python dict (keys unique, first-match get);
vector components are abstracted to integers — upsert never reads them. -/
structure VectorRecord where
  id       : String
  vector   : List Int
  metadata : List (String × String)
deriving DecidableEq

/-- `dict.get(key)` on the association-list model of a metadata dict. -/
def metaGet (m : List (String × String)) (k : String) : Option String :=
  match m.find? (fun kv => kv.1 = k) with
  | some kv => some kv.2
  | none => none

/-- `PineconeVectorStore._validate_record` as a sequential check over one
batch: raising `ValueError` at the first record whose `metadata.tenant_id`
differs from the bound tenant. -/
def validateBatch (tenantId : String) : List VectorRecord → Except String Unit
  | [] => .ok ()
  | r :: rest =>
    if metaGet r.metadata "tenant_id" = some tenantId then
      validateBatch tenantId rest
    else
      .error ("Record tenant_id mismatch: expected " ++ tenantId)

/-- `range(0, len(records), batch_size)` slicing from
`PineconeVectorStore.upsert`; `b + 1` is the positive batch size. -/
def toBatches (b : Nat) : List VectorRecord → List (List VectorRecord)
  | [] => []
  | r :: rest =>
    ((r :: rest).take (b + 1)) :: toBatches b ((r :: rest).drop (b + 1))
termination_by l => l.length
decreasing_by simp [List.length_drop]; omega

/-- The batch loop of `PineconeVectorStore.upsert`: every record of a batch
is validated while the request body is built; only then is the batch sent
to the index (appended to `written`) and counted into `total`. A
validation failure raises with the earlier batches already written. -/
def runBatches (tenantId : String) :
    List (List VectorRecord) → List VectorRecord → Nat →
    List VectorRecord × Except String Nat
  | [], written, total => (written, .ok total)
  | batch :: more, written, total =>
    match validateBatch tenantId batch with
    | .error e => (written, .error e)
    | .ok _ => runBatches tenantId more (written ++ batch) (total + batch.length)

/-- `PineconeVectorStore.upsert(records, batch_size)`: returns the records
actually written to the index alongside the Python-level outcome (count on
success, the raised `ValueError` message on failure). A zero batch size
would make Python's `range` raise, modelled as an error. -/
def upsert (tenantId : String) (records : List VectorRecord)
    (batchSize : Nat) : List VectorRecord × Except String Nat :=
  match batchSize with
  | 0 => ([], .error "range() arg 3 must not be zero")
  | b + 1 => runBatches tenantId (toBatches b records) [] 0

/-- Batch validation succeeds exactly when every record of the batch
carries the bound tenant id. -/
theorem validateBatch_ok_iff (tenantId : String) (batch : List VectorRecord) :
    validateBatch tenantId batch = .ok () ↔
      ∀ r ∈ batch, metaGet r.metadata "tenant_id" = some tenantId := by
  induction batch with
  | nil => simp [validateBatch]
  | cons r rest ih =>
    unfold validateBatch
    by_cases h : metaGet r.metadata "tenant_id" = some tenantId
    · simp [h, ih]
    · simp [h]

/-- Concatenating the batches gives back the original record list. -/
theorem toBatches_join (b : Nat) (l : List VectorRecord) :
    (toBatches b l).flatten = l := by
  induction l using toBatches.induct b with
  | case1 => simp [toBatches]
  | case2 r rest ih =>
    unfold toBatches
    simp only [List.flatten_cons, ih]
    exact List.take_append_drop _ _

/-- Every record written by the batch loop was either already written or
belongs to a batch that fully passed tenant validation. -/
theorem runBatches_written_sound (tenantId : String)
    (bs : List (List VectorRecord)) :
    ∀ written total r, r ∈ (runBatches tenantId bs written total).1 →
      r ∈ written ∨ metaGet r.metadata "tenant_id" = some tenantId := by
  induction bs with
  | nil => intro written total r h; exact Or.inl h
  | cons batch more ih =>
    intro written total r h
    unfold runBatches at h
    cases hv : validateBatch tenantId batch with
    | error e => rw [hv] at h; exact Or.inl h
    | ok u =>
      cases u
      rw [hv] at h
      rcases ih (written ++ batch) (total + batch.length) r h with hmem | hvalid
      · rcases List.mem_append.mp hmem with hw | hb
        · exact Or.inl hw
        · exact Or.inr ((validateBatch_ok_iff tenantId batch).mp hv r hb)
      · exact Or.inr hvalid

/-- If any record of the remaining batches has a mismatched tenant id, the
batch loop raises. -/
theorem runBatches_error_of_bad (tenantId : String)
    (bs : List (List VectorRecord)) :
    ∀ written total,
      (∃ r ∈ bs.flatten, metaGet r.metadata "tenant_id" ≠ some tenantId) →
      ∃ e, (runBatches tenantId bs written total).2 = .error e := by
  induction bs with
  | nil => intro written total h; simp at h
  | cons batch more ih =>
    intro written total h
    unfold runBatches
    cases hv : validateBatch tenantId batch with
    | error e => exact ⟨e, rfl⟩
    | ok u =>
      cases u
      obtain ⟨r, hr, hbad⟩ := h
      rw [List.flatten_cons] at hr
      rcases List.mem_append.mp hr with hb | hm
      · exact absurd ((validateBatch_ok_iff tenantId batch).mp hv r hb) hbad
      · exact ih (written ++ batch) (total + batch.length) ⟨r, hm, hbad⟩

/-- If every record carries the bound tenant id, the batch loop writes all
of them, in order, and counts them. -/
theorem runBatches_all_ok (tenantId : String)
    (bs : List (List VectorRecord)) :
    ∀ written total,
      (∀ r ∈ bs.flatten, metaGet r.metadata "tenant_id" = some tenantId) →
      runBatches tenantId bs written total =
        (written ++ bs.flatten, .ok (total + bs.flatten.length)) := by
  induction bs with
  | nil => intro written total _; simp [runBatches]
  | cons batch more ih =>
    intro written total h
    have hbatch : validateBatch tenantId batch = .ok () :=
      (validateBatch_ok_iff tenantId batch).mpr
        (fun r hr => h r
          (by rw [List.flatten_cons]; exact List.mem_append.mpr (Or.inl hr)))
    unfold runBatches
    rw [hbatch]
    rw [ih (written ++ batch) (total + batch.length)
      (fun r hr => h r
        (by rw [List.flatten_cons]; exact List.mem_append.mpr (Or.inr hr)))]
    simp [List.flatten_cons, List.append_assoc, List.length_append]
    omega

end VectorStore

/-- C1: the tenant-bound store's `upsert` is fail-closed. If any record's
`metadata.tenant_id` differs from the bound tenant, `upsert` raises a
`ValueError` and no mismatched record is ever written to the index; if
every record matches, all records are written (in order) and their count
is returned. Stated for the production batch size 100. -/
theorem pinecone_upsert_fail_closed
    (tenantId : String) (records : List VectorStore.VectorRecord) :
    ((∃ r ∈ records,
        VectorStore.metaGet r.metadata "tenant_id" ≠ some tenantId) →
      (∃ e, (VectorStore.upsert tenantId records 100).2 = .error e)
      ∧ ∀ r ∈ records,
          VectorStore.metaGet r.metadata "tenant_id" ≠ some tenantId →
          r ∉ (VectorStore.upsert tenantId records 100).1)
    ∧ ((∀ r ∈ records,
        VectorStore.metaGet r.metadata "tenant_id" = some tenantId) →
      VectorStore.upsert tenantId records 100 =
        (records, .ok records.length)) := by
  have hjoin : (VectorStore.toBatches 99 records).flatten = records :=
    VectorStore.toBatches_join 99 records
  constructor
  · intro hbad
    constructor
    · obtain ⟨r, hr, hne⟩ := hbad
      exact VectorStore.runBatches_error_of_bad tenantId _ [] 0
        ⟨r, by rw [hjoin]; exact hr, hne⟩
    · intro r _ hne hmem
      rcases VectorStore.runBatches_written_sound tenantId _ [] 0 r hmem with
        h | h
      · exact absurd h (List.not_mem_nil r)
      · exact hne h
  · intro hall
    show VectorStore.runBatches tenantId (VectorStore.toBatches 99 records) [] 0
        = (records, .ok records.length)
    rw [VectorStore.runBatches_all_ok tenantId _ [] 0
      (fun r hr => hall r (by rw [hjoin] at hr; exact hr))]
    rw [hjoin]
    simp

/-- Witness for C1: with bound tenant "t1", a batch containing a record
tagged "t2" is rejected and that record is not written, while two
well-tagged records are written with count 2. -/
theorem pinecone_upsert_fail_closed_witness :
    ((∃ e, (VectorStore.upsert "t1"
        [⟨"a", [1], [("tenant_id", "t1")]⟩,
         ⟨"b", [2], [("tenant_id", "t2")]⟩] 100).2 = .error e)
      ∧ ∀ r ∈ [(⟨"a", [1], [("tenant_id", "t1")]⟩ : VectorStore.VectorRecord),
               ⟨"b", [2], [("tenant_id", "t2")]⟩],
          VectorStore.metaGet r.metadata "tenant_id" ≠ some "t1" →
          r ∉ (VectorStore.upsert "t1"
            [⟨"a", [1], [("tenant_id", "t1")]⟩,
             ⟨"b", [2], [("tenant_id", "t2")]⟩] 100).1)
    ∧ VectorStore.upsert "t1"
        [⟨"a", [1], [("tenant_id", "t1")]⟩,
         ⟨"c", [3], [("tenant_id", "t1")]⟩] 100 =
      ([⟨"a", [1], [("tenant_id", "t1")]⟩,
        ⟨"c", [3], [("tenant_id", "t1")]⟩], .ok 2) :=
  ⟨(pinecone_upsert_fail_closed "t1"
      [⟨"a", [1], [("tenant_id", "t1")]⟩,
       ⟨"b", [2], [("tenant_id", "t2")]⟩]).1
      ⟨⟨"b", [2], [("tenant_id", "t2")]⟩, by decide, by decide⟩,
   (pinecone_upsert_fail_closed "t1"
      [⟨"a", [1], [("tenant_id", "t1")]⟩,
       ⟨"c", [3], [("tenant_id", "t1")]⟩]).2 (by decide)⟩

namespace Ingestion

/-- `_MAGIC_MAP` from `app/services/ingestion.py` in dict insertion order:
magic byte signature to detected MIME type. -/
def MAGIC_MAP : List (List Nat × String) :=
  [([0x25, 0x50, 0x44, 0x46], "application/pdf"),
   ([0x50, 0x4b, 0x03, 0x04],
     "application/vnd.openxmlformats-officedocument.wordprocessingml.document"),
   ([0xd0, 0xcf, 0x11, 0xe0, 0xa1, 0xb1, 0x1a, 0xe1], "application/msword")]

/-- `bytes.startswith`: does `haystack` begin with `pat`? -/
def startsWithBytes : List Nat → List Nat → Bool
  | _, [] => true
  | [], _ :: _ => false
  | a :: as, b :: bs => a = b && startsWithBytes as bs

/-- The characters after the last `.` of a filename, if any dot occurs
(the tail component of Python `filename.rsplit(".", 1)`). -/
def afterLastDot : List Char → Option (List Char)
  | [] => none
  | c :: rest =>
    match afterLastDot rest with
    | some s => some s
    | none => if c = '.' then some rest else none

/-- `_file_ext` from `app/services/ingestion.py`: lowercased extension with
dot, or the empty string when the name has no dot. -/
def fileExt (filename : String) : String :=
  match afterLastDot filename.data with
  | some s => String.mk ('.' :: s.map Char.toLower)
  | none => ""

/-- `_detect_mime` from `app/services/ingestion.py`. The stdlib
`mimetypes.guess_type` table is abstracted by the `guess` parameter; it is
only reached when no magic signature matches and the extension is not
`.txt`/`.md`. -/
def detectMime (guess : String → Option String) (filename : String)
    (head8 : List Nat) : String :=
  match MAGIC_MAP.find? (fun mm => startsWithBytes head8 mm.1) with
  | some mm => mm.2
  | none =>
    let ext := fileExt filename
    if ext = ".txt" ∨ ext = ".md" then "text/plain"
    else (guess filename).getD "application/octet-stream"

/-- `ALLOWED_CONTENT_TYPES` from `app/schemas/documents.py`. -/
def ALLOWED_CONTENT_TYPES : List String :=
  ["application/pdf",
   "application/vnd.openxmlformats-officedocument.wordprocessingml.document",
   "application/msword",
   "text/plain",
   "text/markdown"]

/-- `ALLOWED_EXTENSIONS` from `app/schemas/documents.py`. -/
def ALLOWED_EXTENSIONS : List String :=
  [".pdf", ".docx", ".doc", ".txt", ".md"]

/-- Outcome of the step-4 allowlist validation of `IngestionService.ingest`:
either the detected MIME is returned and the pipeline continues, or an
`UNSUPPORTED_FILE_TYPE` HTTP 400 is raised (carrying the offending
detected type or extension string). -/
inductive Step4Result where
  | ok (detectedMime : String)
  | unsupported (statusCode : Nat) (detail : String)
deriving DecidableEq

/-- Step 4 of `IngestionService.ingest`: detect the MIME from the first 8
bytes, reject when it is not allowlisted, then reject when the extension
is not allowlisted. The two checks are independent allowlists — there is
no cross-check that the extension agrees with the detected MIME. -/
def validateTypeStep (guess : String → Option String) (rawFilename : String)
    (head8 : List Nat) : Step4Result :=
  let detected := detectMime guess rawFilename head8
  if detected ∉ ALLOWED_CONTENT_TYPES then
    .unsupported 400 detected
  else if fileExt rawFilename ∉ ALLOWED_EXTENSIONS then
    .unsupported 400 ("extension: " ++ fileExt rawFilename)
  else
    .ok detected

/-- Result of `db.flush()` on the step-7 INSERT. -/
inductive InsertOutcome where
  | ok
  | integrityError
deriving DecidableEq

/-- Outcome of the duplicate-relevant tail of `IngestionService.ingest`. -/
inductive IngestOutcome where
  | accepted (documentId : String)
  | conflict409 (checksum : String) (reportedExistingId : String)
deriving DecidableEq

/-- Steps 6-7 of `IngestionService.ingest`: the duplicate probe
(`_find_duplicate`, returning the id of the already-stored document with
this checksum when the SELECT sees it) followed by the INSERT whose UNIQUE
constraint verdict is `insertOutcome`. On a probe hit the 409 carries
`existing.id`; on an `IntegrityError` race the 409 carries the freshly
generated `document_id`. -/
def duplicateHandling (md5 : String) (existingProbe : Option String)
    (freshId : String) (insertOutcome : InsertOutcome) : IngestOutcome :=
  match existingProbe with
  | some existingId => .conflict409 md5 existingId
  | none =>
    match insertOutcome with
    | .integrityError => .conflict409 md5 freshId
    | .ok => .accepted freshId

end Ingestion

/-- C5, evaluated at the failing input: when the step-6 probe misses (race)
and the step-7 INSERT hits the tenant-scoped UNIQUE constraint — the
already-existing document being `"d-first"` and the rejected upload's
fresh id `"d-fresh"` — the 409 carries the fresh id `"d-fresh"`, not the
existing document's id; only the probe path reports the existing id. -/
theorem ingestion_duplicate_race_reports_fresh_id :
    Ingestion.duplicateHandling "5d41402abc4b2a76b9719d911017c592" none
        "d-fresh" .integrityError =
      .conflict409 "5d41402abc4b2a76b9719d911017c592" "d-fresh"
    ∧ "d-fresh" ≠ "d-first"
    ∧ Ingestion.duplicateHandling "5d41402abc4b2a76b9719d911017c592"
        (some "d-first") "d-fresh" .ok =
      .conflict409 "5d41402abc4b2a76b9719d911017c592" "d-first" := by
  refine ⟨rfl, ?_, rfl⟩
  decide

/-- C6 as stated is false: an upload whose first 8 bytes start with `%PDF`
and whose extension is `.doc` is NOT rejected by step 4 — detected MIME
`application/pdf` and extension `.doc` are both allowlisted, so the
validation returns ok (here at filename `report.doc`, head `%PDF-1.4`,
with the stdlib mime-guess table irrelevant on this path). -/
theorem ingestion_pdf_magic_doc_ext_not_rejected :
    Ingestion.validateTypeStep (fun _ => none) "report.doc"
        [0x25, 0x50, 0x44, 0x46, 0x2d, 0x31, 0x2e, 0x34] =
      .ok "application/pdf"
    ∧ Ingestion.validateTypeStep (fun _ => none) "report.doc"
        [0x25, 0x50, 0x44, 0x46, 0x2d, 0x31, 0x2e, 0x34] ≠
      .unsupported 400 ("extension: " ++ Ingestion.fileExt "report.doc") := by
  constructor
  · decide
  · decide

/-- C6 amended: a file whose first 8 bytes begin with `%PDF` and whose
filename extension is `.doc` passes the step-4 allowlist check with
detected MIME `application/pdf` — both the detected MIME and the `.doc`
extension are in their respective allowlists, and step 4 never
cross-checks extension against detected MIME. -/
theorem ingestion_pdf_magic_doc_ext_passes_step4
    (guess : String → Option String) (filename : String) (head8 : List Nat)
    (hmagic : Ingestion.startsWithBytes head8 [0x25, 0x50, 0x44, 0x46] = true)
    (hext : Ingestion.fileExt filename = ".doc") :
    Ingestion.validateTypeStep guess filename head8 = .ok "application/pdf" := by
  have hdetect : Ingestion.detectMime guess filename head8 = "application/pdf" := by
    unfold Ingestion.detectMime Ingestion.MAGIC_MAP
    rw [List.find?_cons_of_pos _ (by simpa using hmagic)]
  unfold Ingestion.validateTypeStep
  rw [hdetect, hext]
  norm_num [Ingestion.ALLOWED_CONTENT_TYPES, Ingestion.ALLOWED_EXTENSIONS]

/-- Witness for the amended C6 at the concrete upload `report.doc` with
head bytes `%PDF-1.4`. -/
theorem ingestion_pdf_magic_doc_ext_passes_step4_witness :
    Ingestion.validateTypeStep (fun _ => none) "report.doc"
        [0x25, 0x50, 0x44, 0x46, 0x2d, 0x31, 0x2e, 0x34] =
      .ok "application/pdf" :=
  ingestion_pdf_magic_doc_ext_passes_step4 (fun _ => none) "report.doc"
    [0x25, 0x50, 0x44, 0x46, 0x2d, 0x31, 0x2e, 0x34] (by decide) (by decide)


namespace Py

/-- Python `str.strip()` on the character-list view of a string. -/
def strip (cs : List Char) : List Char :=
  ((cs.dropWhile Char.isWhitespace).reverse.dropWhile Char.isWhitespace).reverse

end Py

namespace Tasks

/-- Slice of a `saas.documents` row used by `_run_pipeline`
(`app/workers/tasks.py`). -/
structure DocRow where
  status      : String
  chunkCount  : Nat
  vectorCount : Nat
deriving DecidableEq

/-- Slice of a `saas.chunks` row inserted in step 8. -/
structure ChunkRow where
  docId      : String
  chunkIndex : Nat
  text       : String
  tokenCount : Nat
  vectorId   : String
deriving DecidableEq

/-- Database plus vector-store state touched by the pipeline transaction. -/
structure DbState where
  docs      : List (String × DocRow)
  chunks    : List ChunkRow
  vectorIds : List String
  audit     : List String
deriving DecidableEq

/-- One chunk as produced by the semantic chunker in step 5. -/
structure ChunkData where
  chunkId    : String
  chunkIndex : Nat
  text       : String
  tokenEst   : Nat
deriving DecidableEq

/-- The external effects of steps 3-6 (S3 download, extraction, chunking,
embedding), abstracted as data: `_run_pipeline` reads them and never
writes them. -/
structure PipelineEnv where
  extractedText   : String
  chunksOut       : List ChunkData
  failedChunks    : List Nat
  vectorRecordIds : List String
deriving DecidableEq

/-- Return value of `_run_pipeline` (the dict shapes collapsed to their
discriminating fields). -/
inductive PipelineResult where
  | errorResult (reason : String)
  | skipped (status : String)
  | done (chunkCount vectorCount : Nat)
deriving DecidableEq

/-- First-match SELECT of a document row by id. -/
def lookupDoc (docs : List (String × DocRow)) (id : String) : Option DocRow :=
  match docs.find? (fun kv => kv.1 = id) with
  | some kv => some kv.2
  | none => none

/-- UPDATE of a document row by id. -/
def setDoc (docs : List (String × DocRow)) (id : String)
    (f : DocRow → DocRow) : List (String × DocRow) :=
  docs.map (fun kv => if kv.1 = id then (kv.1, f kv.2) else kv)

/-- `_run_pipeline` from `app/workers/tasks.py` over the abstract state:
step 1 is the idempotency gate (missing id → error; status ready or
processing → `{skipped: true}` with nothing touched); the failure paths
commit status `failed` plus the failure audit row; the success path
upserts the vectors, inserts the surviving chunk rows, sets status
`ready` with the counts, and appends the `document.processed` audit row. -/
def runPipeline (env : PipelineEnv) (docId : String) (st : DbState) :
    PipelineResult × DbState :=
  match lookupDoc st.docs docId with
  | none => (.errorResult "document_not_found", st)
  | some doc =>
    if doc.status = "ready" ∨ doc.status = "processing" then
      (.skipped doc.status, st)
    else if Py.strip env.extractedText.data = [] then
      (.errorResult "empty_extraction",
        { st with
          docs := setDoc st.docs docId (fun d => { d with status := "failed" }),
          audit := st.audit ++ ["document.processing_failed"] })
    else if env.chunksOut.isEmpty then
      (.errorResult "empty_chunks",
        { st with
          docs := setDoc st.docs docId (fun d => { d with status := "failed" }),
          audit := st.audit ++ ["document.processing_failed"] })
    else if env.vectorRecordIds.isEmpty then
      (.errorResult "embedding_failed",
        { st with
          docs := setDoc st.docs docId (fun d => { d with status := "failed" }),
          audit := st.audit ++ ["document.processing_failed"] })
    else
      let chunkRows := (env.chunksOut.filter
          (fun c => c.chunkIndex ∉ env.failedChunks)).map
        (fun c => ChunkRow.mk docId c.chunkIndex c.text c.tokenEst c.chunkId)
      let upserted := env.vectorRecordIds.length
      (.done chunkRows.length upserted,
        { docs := setDoc st.docs docId (fun d =>
            { d with
              status := "ready",
              chunkCount := chunkRows.length,
              vectorCount := upserted }),
          chunks := st.chunks ++ chunkRows,
          vectorIds := st.vectorIds ++
            env.vectorRecordIds.filter (fun i => i ∉ st.vectorIds),
          audit := st.audit ++ ["document.processed"] })

/-- Updating a document row commutes with looking it up. -/
theorem lookupDoc_setDoc (docs : List (String × DocRow)) (id : String)
    (f : DocRow → DocRow) :
    lookupDoc (setDoc docs id f) id = (lookupDoc docs id).map f := by
  induction docs with
  | nil => rfl
  | cons kv rest ih =>
    unfold lookupDoc setDoc at ih ⊢
    by_cases h : kv.1 = id
    · simp [List.find?, h]
    · simp only [List.map_cons, if_neg h, List.find?] at ih ⊢
      have hd : decide (kv.1 = id) = false := by simp [h]
      rw [hd]
      exact ih

end Tasks

/-- C8: `process_document` run twice sequentially for the same document id
is idempotent. Whenever the step-1 gate sees status `ready` or
`processing` it returns `{skipped: true}` and leaves the document rows,
chunk rows and vector store untouched; and after any first run that
completes (returns `done`), the document's status is `ready`, so a second
run — under any environment — is exactly such a skip, returning the state
of the first run unchanged. -/
theorem pipeline_second_run_is_noop
    (env env2 : Tasks.PipelineEnv) (docId : String) (st : Tasks.DbState) :
    (∀ doc, Tasks.lookupDoc st.docs docId = some doc →
      (doc.status = "ready" ∨ doc.status = "processing") →
      Tasks.runPipeline env docId st = (.skipped doc.status, st))
    ∧ (∀ c v, (Tasks.runPipeline env docId st).1 = .done c v →
      Tasks.runPipeline env2 docId (Tasks.runPipeline env docId st).2 =
        (.skipped "ready", (Tasks.runPipeline env docId st).2)) := by
  constructor
  · intro doc hdoc hstatus
    unfold Tasks.runPipeline
    rw [hdoc]
    simp [hstatus]
  · intro c v hdone
    cases hlook : Tasks.lookupDoc st.docs docId with
    | none =>
      have hres : (Tasks.runPipeline env docId st).1 =
          .errorResult "document_not_found" := by
        unfold Tasks.runPipeline; rw [hlook]
      rw [hres] at hdone
      simp at hdone
    | some doc =>
      by_cases hstatus : doc.status = "ready" ∨ doc.status = "processing"
      · have hres : (Tasks.runPipeline env docId st).1 = .skipped doc.status := by
          unfold Tasks.runPipeline; rw [hlook]; simp [hstatus]
        rw [hres] at hdone
        simp at hdone
      · by_cases h1 : Py.strip env.extractedText.data = []
        · have hres : (Tasks.runPipeline env docId st).1 =
              .errorResult "empty_extraction" := by
            unfold Tasks.runPipeline; rw [hlook]; simp [hstatus, h1]
          rw [hres] at hdone
          simp at hdone
        · by_cases h2 : env.chunksOut.isEmpty = true
          · have hres : (Tasks.runPipeline env docId st).1 =
                .errorResult "empty_chunks" := by
              unfold Tasks.runPipeline; rw [hlook]; simp [hstatus, h1, h2]
            rw [hres] at hdone
            simp at hdone
          · by_cases h3 : env.vectorRecordIds.isEmpty = true
            · have hres : (Tasks.runPipeline env docId st).1 =
                  .errorResult "embedding_failed" := by
                unfold Tasks.runPipeline; rw [hlook]; simp [hstatus, h1, h2, h3]
              rw [hres] at hdone
              simp at hdone
            · have hstate : (Tasks.runPipeline env docId st).2.docs =
                  Tasks.setDoc st.docs docId (fun d =>
                    { d with
                      status := "ready",
                      chunkCount := ((env.chunksOut.filter
                        (fun ch => ch.chunkIndex ∉ env.failedChunks)).map
                        (fun ch => Tasks.ChunkRow.mk docId ch.chunkIndex
                          ch.text ch.tokenEst ch.chunkId)).length,
                      vectorCount := env.vectorRecordIds.length }) := by
                unfold Tasks.runPipeline
                rw [hlook]
                simp [hstatus, h1, h2, h3]
              have hlook2 : Tasks.lookupDoc
                  (Tasks.runPipeline env docId st).2.docs docId =
                  some { doc with
                    status := "ready",
                    chunkCount := ((env.chunksOut.filter
                      (fun ch => ch.chunkIndex ∉ env.failedChunks)).map
                      (fun ch => Tasks.ChunkRow.mk docId ch.chunkIndex
                        ch.text ch.tokenEst ch.chunkId)).length,
                    vectorCount := env.vectorRecordIds.length } := by
                rw [hstate, Tasks.lookupDoc_setDoc, hlook]
                rfl
              have hgate : ∀ st1 : Tasks.DbState,
                  Tasks.lookupDoc st1.docs docId =
                    some { doc with
                      status := "ready",
                      chunkCount := ((env.chunksOut.filter
                        (fun ch => ch.chunkIndex ∉ env.failedChunks)).map
                        (fun ch => Tasks.ChunkRow.mk docId ch.chunkIndex
                          ch.text ch.tokenEst ch.chunkId)).length,
                      vectorCount := env.vectorRecordIds.length } →
                  Tasks.runPipeline env2 docId st1 = (.skipped "ready", st1) := by
                intro st1 hl
                unfold Tasks.runPipeline
                rw [hl]
                simp
              exact hgate _ hlook2

/-- Witness for C8: a concrete pending document is processed to `ready` by
a first run, and the second run returns `{skipped: true, status: ready}`
with the state of the first run unchanged. -/
theorem pipeline_second_run_is_noop_witness :
    (Tasks.runPipeline
        ⟨"hello world", [⟨"cid0", 0, "hello world", 2⟩], [], ["cid0"]⟩
        "doc1"
        (Tasks.runPipeline
          ⟨"hello world", [⟨"cid0", 0, "hello world", 2⟩], [], ["cid0"]⟩
          "doc1"
          ⟨[("doc1", ⟨"pending", 0, 0⟩)], [], [], []⟩).2) =
      (.skipped "ready",
        (Tasks.runPipeline
          ⟨"hello world", [⟨"cid0", 0, "hello world", 2⟩], [], ["cid0"]⟩
          "doc1"
          ⟨[("doc1", ⟨"pending", 0, 0⟩)], [], [], []⟩).2) :=
  (pipeline_second_run_is_noop
    ⟨"hello world", [⟨"cid0", 0, "hello world", 2⟩], [], ["cid0"]⟩
    ⟨"hello world", [⟨"cid0", 0, "hello world", 2⟩], [], ["cid0"]⟩
    "doc1" ⟨[("doc1", ⟨"pending", 0, 0⟩)], [], [], []⟩).2 1 1 (by decide)

namespace Sha256

/-! `hashlib.sha256` as used by `_make_chunk_id` in
`app/processing/chunking.py`: the FIPS 180-4 algorithm over byte lists,
with 32-bit words as naturals reduced mod 2^32. -/

/-- 2^32. -/
def w32 : Nat := 4294967296

/-- Rotate a 32-bit word right by `n`. -/
def rotr (n x : Nat) : Nat := ((x >>> n) ||| (x <<< (32 - n))) % w32

def smallSigma0 (x : Nat) : Nat := (rotr 7 x) ^^^ (rotr 18 x) ^^^ (x >>> 3)

def smallSigma1 (x : Nat) : Nat := (rotr 17 x) ^^^ (rotr 19 x) ^^^ (x >>> 10)

def bigSigma0 (x : Nat) : Nat := (rotr 2 x) ^^^ (rotr 13 x) ^^^ (rotr 22 x)

def bigSigma1 (x : Nat) : Nat := (rotr 6 x) ^^^ (rotr 11 x) ^^^ (rotr 25 x)

def ch (x y z : Nat) : Nat := (x &&& y) ^^^ ((x ^^^ 4294967295) &&& z)

def maj (x y z : Nat) : Nat := (x &&& y) ^^^ (x &&& z) ^^^ (y &&& z)

/-- The 64 round constants. -/
def K : List Nat :=
  [1116352408, 1899447441, 3049323471, 3921009573,
   961987163, 1508970993, 2453635748, 2870763221,
   3624381080, 310598401, 607225278, 1426881987,
   1925078388, 2162078206, 2614888103, 3248222580,
   3835390401, 4022224774, 264347078, 604807628,
   770255983, 1249150122, 1555081692, 1996064986,
   2554220882, 2821834349, 2952996808, 3210313671,
   3336571891, 3584528711, 113926993, 338241895,
   666307205, 773529912, 1294757372, 1396182291,
   1695183700, 1986661051, 2177026350, 2456956037,
   2730485921, 2820302411, 3259730800, 3345764771,
   3516065817, 3600352804, 4094571909, 275423344,
   430227734, 506948616, 659060556, 883997877,
   958139571, 1322822218, 1537002063, 1747873779,
   1955562222, 2024104815, 2227730452, 2361852424,
   2428436474, 2756734187, 3204031479, 3329325298]

/-- The initial hash state. -/
def H0 : List Nat :=
  [1779033703, 3144134277, 1013904242, 2773480762,
   1359893119, 2600822924, 528734635, 1541459225]

/-- Append the next word of the message schedule. -/
def scheduleStep (ws : List Nat) : List Nat :=
  let n := ws.length
  ws ++ [(smallSigma1 (ws.getD (n - 2) 0) + ws.getD (n - 7) 0 +
          smallSigma0 (ws.getD (n - 15) 0) + ws.getD (n - 16) 0) % w32]

/-- Extend a 16-word block by `k` schedule words. -/
def buildSchedule (ws : List Nat) : Nat → List Nat
  | 0 => ws
  | k + 1 => buildSchedule (scheduleStep ws) k

/-- One compression round on the 8-word working state. -/
def compressRound (st : List Nat) (k w : Nat) : List Nat :=
  match st with
  | [a, b, c, d, e, f, g, h] =>
    let t1 := (h + bigSigma1 e + ch e f g + k + w) % w32
    let t2 := (bigSigma0 a + maj a b c) % w32
    [(t1 + t2) % w32, a, b, c, (d + t1) % w32, e, f, g]
  | other => other

/-- Compress one 16-word block into the running hash state. -/
def compressBlock (hs : List Nat) (block : List Nat) : List Nat :=
  let ws := buildSchedule block 48
  let final := (K.zip ws).foldl (fun st kw => compressRound st kw.1 kw.2) hs
  (hs.zip final).map (fun p => (p.1 + p.2) % w32)

/-- Big-endian byte encoding of `x` on `n` bytes. -/
def toBytesBE : Nat → Nat → List Nat
  | 0, _ => []
  | k + 1, x => toBytesBE k (x / 256) ++ [x % 256]

/-- FIPS 180-4 padding: `0x80`, zeros to 56 mod 64, 8-byte bit length. -/
def padMessage (msg : List Nat) : List Nat :=
  let len := msg.length
  msg ++ 0x80 :: List.replicate ((119 - len % 64) % 64) 0 ++ toBytesBE 8 (len * 8)

/-- Big-endian 32-bit words from bytes. -/
def bytesToWords : List Nat → List Nat
  | b0 :: b1 :: b2 :: b3 :: rest =>
    (b0 * 16777216 + b1 * 65536 + b2 * 256 + b3) :: bytesToWords rest
  | _ => []

/-- Split a padded word list into 16-word blocks. -/
def toBlocks : List Nat → List (List Nat)
  | w0 :: w1 :: w2 :: w3 :: w4 :: w5 :: w6 :: w7 ::
    w8 :: w9 :: w10 :: w11 :: w12 :: w13 :: w14 :: w15 :: rest =>
    [w0, w1, w2, w3, w4, w5, w6, w7,
     w8, w9, w10, w11, w12, w13, w14, w15] :: toBlocks rest
  | _ => []

/-- SHA-256 digest of a byte list, as eight 32-bit words. -/
def sha256Words (msg : List Nat) : List Nat :=
  (toBlocks (bytesToWords (padMessage msg))).foldl compressBlock H0

/-- Lowercase hex digit. -/
def hexDigit (n : Nat) : Char :=
  if n < 10 then Char.ofNat (48 + n) else Char.ofNat (87 + n)

/-- Eight lowercase hex characters of a 32-bit word. -/
def wordToHex (x : Nat) : List Char :=
  (List.range 8).map (fun i => hexDigit ((x >>> (28 - 4 * i)) &&& 15))

/-- `hashlib.sha256(msg).hexdigest()` as a character list. -/
def sha256Hex (msg : List Nat) : List Char :=
  ((sha256Words msg).map wordToHex).flatten

/-- UTF-8 encoding of one code point (Python `str.encode()`). -/
def charUtf8 (c : Char) : List Nat :=
  let n := c.toNat
  if n < 0x80 then [n]
  else if n < 0x800 then
    [0xc0 ||| (n >>> 6), 0x80 ||| (n &&& 0x3f)]
  else if n < 0x10000 then
    [0xe0 ||| (n >>> 12), 0x80 ||| ((n >>> 6) &&& 0x3f), 0x80 ||| (n &&& 0x3f)]
  else
    [0xf0 ||| (n >>> 18), 0x80 ||| ((n >>> 12) &&& 0x3f),
     0x80 ||| ((n >>> 6) &&& 0x3f), 0x80 ||| (n &&& 0x3f)]

/-- `str.encode()` — UTF-8 bytes of a string. -/
def encodeUtf8 (s : List Char) : List Nat := (s.map charUtf8).flatten

end Sha256

namespace Chunking

/-! Embedding of `app/processing/chunking.py` from the paragraph/sentence
pieces onward. The upstream steps (Unicode NFC normalization, heading
detection, spaCy-backed sentence splitting) depend on external Unicode
tables and the spaCy model, so the theorems quantify over their output —
the list of `(text, heading)` pieces handed to `_enforce_size_limits` —
covering every possible upstream behavior. Text is the `List Char` view
of Python `str` (code-point sequences), so slicing, `len`, `strip` and
`rfind` keep Python's index semantics. -/

/-- `MIN_CHUNK_CHARS` module constant. -/
def MIN_CHUNK_CHARS : Nat := 200

/-- `MAX_CHUNK_CHARS` module constant. -/
def MAX_CHUNK_CHARS : Nat := 2000

/-- `OVERLAP_CHARS` module constant. -/
def OVERLAP_CHARS : Nat := 100

/-- A `(chunk_text, heading)` pair. -/
abbrev Piece := List Char × List Char

/-- Does `sub` occur in `text` starting at index `i`? -/
def matchesAt (text sub : List Char) (i : Nat) : Bool :=
  (text.drop i).take sub.length == sub

/-- Scan indices `i, i-1, …, a` for the highest match of `sub` in `text`. -/
def rfindDesc (text sub : List Char) (a : Nat) : Nat → Option Nat
  | 0 => if a = 0 && matchesAt text sub 0 then some 0 else none
  | i + 1 =>
    if a ≤ i + 1 && matchesAt text sub (i + 1) then some (i + 1)
    else rfindDesc text sub a i

/-- Python `text.rfind(sub, a, b)`: the highest index of a full occurrence
of `sub` inside `text[a:b]`, or `-1`. -/
def pyRfind (text sub : List Char) (a b : Nat) : Int :=
  if sub.length ≤ b then
    match rfindDesc text sub a (b - sub.length) with
    | some i => Int.ofNat i
    | none => -1
  else -1

/-- Python `text.find(sub)`: the lowest match index, or `-1`. -/
def pyFind (text sub : List Char) : Int :=
  match (List.range (text.length + 1)).find? (fun i => matchesAt text sub i) with
  | some i => Int.ofNat i
  | none => -1

/-- Pass 1 of `SemanticChunker._enforce_size_limits`: the running
`(buffer_text, buffer_head)` loop that merges a buffer shorter than
`MIN_CHUNK_CHARS` with its successor (joined by a blank line, the
non-empty heading kept) and flushes it otherwise. -/
def mergeLoop : List Piece → List Char → List Char → List Piece
  | [], bufText, bufHead =>
    if bufText = [] then [] else [(bufText, bufHead)]
  | (text, heading) :: rest, bufText, bufHead =>
    if bufText = [] then
      mergeLoop rest text heading
    else if bufText.length < MIN_CHUNK_CHARS then
      mergeLoop rest (bufText ++ '\n' :: '\n' :: text)
        (if bufHead = [] then heading else bufHead)
    else
      (bufText, bufHead) :: mergeLoop rest text heading

/-- Pass 1 entered with an empty buffer. -/
def mergePass (chunks : List Piece) : List Piece := mergeLoop chunks [] []

/-- The window-end computation of `SemanticChunker._hard_split`: cut at
`start + MAX_CHUNK_CHARS`, moved back to just after the last `". "`
before the cutoff when that boundary lies beyond `start + MIN_CHUNK_CHARS`. -/
def nextWindowEnd (text : List Char) (start : Nat) : Nat :=
  let e0 := start + MAX_CHUNK_CHARS
  if e0 < text.length then
    match pyRfind text ['.', ' '] start e0 with
    | Int.ofNat boundary =>
      if boundary > start + MIN_CHUNK_CHARS then boundary + 1 else e0
    | _ => e0
  else e0

/-- The `while start < len(text)` loop of `_hard_split`, driven by a fuel
counter. Each iteration advances `start` by at least one, so any fuel
covering the remaining characters yields the loop's full output
(`hardSplitLoop_fuel_congr`). -/
def hardSplitLoop (text heading : List Char) : Nat → Nat → List Piece
  | 0, _ => []
  | fuel + 1, start =>
    if start < text.length then
      let e := nextWindowEnd text start
      let chunk := Py.strip ((text.drop start).take (e - start))
      let rest := hardSplitLoop text heading fuel (max (start + 1) (e - OVERLAP_CHARS))
      if chunk = [] then rest else (chunk, heading) :: rest
    else []

/-- `SemanticChunker._hard_split`. -/
def hardSplit (text heading : List Char) : List Piece :=
  hardSplitLoop text heading text.length 0

/-- `SemanticChunker._enforce_size_limits`: merge pass, then hard-split of
every chunk exceeding `MAX_CHUNK_CHARS`. -/
def enforceSizeLimits (chunks : List Piece) : List Piece :=
  ((mergePass chunks).map (fun p =>
    if p.1.length ≤ MAX_CHUNK_CHARS then [p] else hardSplit p.1 p.2)).flatten

/-- `ChunkResult` from `app/processing/chunking.py` (the `metadata` dict,
which only repeats the listed fields plus the caller's `extra_meta` bag,
is omitted). -/
structure ChunkResult where
  chunk_id    : String
  tenant_id   : String
  document_id : String
  chunk_index : Nat
  text        : List Char
  char_count  : Nat
  token_est   : Nat
  page_number : Nat
  source_key  : String
  heading     : List Char
deriving DecidableEq

/-- `_make_chunk_id`: the first 32 hex characters of
`sha256(f"{tenant_id}:{document_id}:{chunk_index}".encode())`. -/
def makeChunkId (tenantId documentId : String) (chunkIndex : Nat) : String :=
  String.mk ((Sha256.sha256Hex (Sha256.encodeUtf8
    (tenantId.data ++ ':' :: documentId.data ++ ':' ::
      (Nat.repr chunkIndex).data))).take 32)

/-- Stable insertion of a `(char_offset, page)` pair by offset. -/
def insertByOffset (x : Nat × Nat) : List (Nat × Nat) → List (Nat × Nat)
  | [] => [x]
  | y :: ys => if y.1 ≤ x.1 then y :: insertByOffset x ys else x :: y :: ys

/-- `sorted(page_map.items())` (offset keys are unique). -/
def sortByOffset : List (Nat × Nat) → List (Nat × Nat)
  | [] => []
  | x :: xs => insertByOffset x (sortByOffset xs)

/-- The scan of `_lookup_page` over the sorted page map. -/
def lookupPageLoop (charOffset : Int) : List (Nat × Nat) → Nat → Nat
  | [], page => page
  | (offsetStart, pageNum) :: rest, page =>
    if (offsetStart : Int) ≤ charOffset then lookupPageLoop charOffset rest pageNum
    else page

/-- `_lookup_page`: page number for a character offset (1 when the map is
empty; the offset may be `-1` from a failed `str.find`). -/
def lookupPage (charOffset : Int) (pageMap : List (Nat × Nat)) : Nat :=
  if pageMap = [] then 1
  else lookupPageLoop charOffset (sortByOffset pageMap) 1

/-- One `ChunkResult` of the step-4 assembly loop of
`SemanticChunker.chunk`. -/
def mkChunkResult (fullText : List Char) (tenantId documentId sourceKey : String)
    (pageMap : List (Nat × Nat)) (idx : Nat) (p : Piece) : ChunkResult :=
  let charOffset : Int := if p.1 = [] then 0 else pyFind fullText (p.1.take 40)
  { chunk_id := makeChunkId tenantId documentId idx
    tenant_id := tenantId
    document_id := documentId
    chunk_index := idx
    text := p.1
    char_count := p.1.length
    token_est := max 1 (p.1.length / 4)
    page_number := lookupPage charOffset pageMap
    source_key := sourceKey
    heading := p.2 }

/-- The `enumerate(sized_chunks)` assembly loop of `SemanticChunker.chunk`. -/
def buildChunkResults (fullText : List Char)
    (tenantId documentId sourceKey : String) (pageMap : List (Nat × Nat)) :
    Nat → List Piece → List ChunkResult
  | _, [] => []
  | idx, p :: rest =>
    mkChunkResult fullText tenantId documentId sourceKey pageMap idx p ::
      buildChunkResults fullText tenantId documentId sourceKey pageMap (idx + 1) rest

/-- `SemanticChunker.chunk` from the raw pieces handed to
`_enforce_size_limits` onward: size enforcement, then the `ChunkResult`
assembly with 0-based indices. -/
def chunkFromRaw (raw : List Piece) (fullText : List Char)
    (tenantId documentId sourceKey : String) (pageMap : List (Nat × Nat)) :
    List ChunkResult :=
  buildChunkResults fullText tenantId documentId sourceKey pageMap 0
    (enforceSizeLimits raw)

/-- The fuel of `hardSplitLoop` is irrelevant once it covers the remaining
characters: `start` advances by at least one per iteration. -/
theorem hardSplitLoop_fuel_congr (text heading : List Char) :
    ∀ f1 f2 start, text.length ≤ start + f1 → text.length ≤ start + f2 →
      hardSplitLoop text heading f1 start = hardSplitLoop text heading f2 start := by
  intro f1
  induction f1 with
  | zero =>
    intro f2 start h1 h2
    have hge : ¬ (start < text.length) := by omega
    cases f2 with
    | zero => rfl
    | succ b => simp [hardSplitLoop, hge]
  | succ a ih =>
    intro f2 start h1 h2
    cases f2 with
    | zero =>
      have hge : ¬ (start < text.length) := by omega
      simp [hardSplitLoop, hge]
    | succ b =>
      unfold hardSplitLoop
      by_cases hlt : start < text.length
      · simp only [hlt, if_true]
        have hnext : start + 1 ≤ max (start + 1) (nextWindowEnd text start - OVERLAP_CHARS) :=
          Nat.le_max_left _ _
        rw [ih b (max (start + 1) (nextWindowEnd text start - OVERLAP_CHARS))
          (by omega) (by omega)]
      · simp [hlt]

/-- Lengths of `buildChunkResults`. -/
theorem buildChunkResults_length (fullText : List Char)
    (tenantId documentId sourceKey : String) (pageMap : List (Nat × Nat)) :
    ∀ (l : List Piece) (idx : Nat),
      (buildChunkResults fullText tenantId documentId sourceKey pageMap idx l).length
        = l.length := by
  intro l
  induction l with
  | nil => intro idx; rfl
  | cons p rest ih => intro idx; simp [buildChunkResults, ih]

/-- Elements of `buildChunkResults`: the `j`-th result is assembled from
the `j`-th piece with running index `idx + j`. -/
theorem buildChunkResults_get (fullText : List Char)
    (tenantId documentId sourceKey : String) (pageMap : List (Nat × Nat)) :
    ∀ (l : List Piece) (idx j : Nat)
      (h : j < (buildChunkResults fullText tenantId documentId sourceKey pageMap idx l).length)
      (hl : j < l.length),
      (buildChunkResults fullText tenantId documentId sourceKey pageMap idx l).get ⟨j, h⟩
        = mkChunkResult fullText tenantId documentId sourceKey pageMap (idx + j)
            (l.get ⟨j, hl⟩) := by
  intro l
  induction l with
  | nil => intro idx j h hl; simp at hl
  | cons p rest ih =>
    intro idx j h hl
    cases j with
    | zero => simp [buildChunkResults]
    | succ k =>
      have hrec := ih (idx + 1) k
        (by
          have := h
          simp [buildChunkResults] at this
          simpa [buildChunkResults_length] using this)
        (by simpa using Nat.lt_of_succ_lt_succ hl)
      simp only [buildChunkResults, List.get_cons_succ]
      rw [hrec]
      have harith : idx + 1 + k = idx + (k + 1) := by omega
      rw [harith]

end Chunking


namespace Chunking

/-- Every chunk flushed inside the merge loop has at least
`MIN_CHUNK_CHARS` characters: only the final buffer flush may be shorter. -/
theorem mergeLoop_dropLast_min :
    ∀ (chunks : List Piece) (bufText bufHead : List Char),
      ∀ p ∈ (mergeLoop chunks bufText bufHead).dropLast,
        MIN_CHUNK_CHARS ≤ p.1.length := by
  intro chunks
  induction chunks with
  | nil =>
    intro bufText bufHead p hp
    by_cases hb : bufText = [] <;> simp [mergeLoop, hb] at hp
  | cons piece rest ih =>
    intro bufText bufHead p hp
    obtain ⟨text, heading⟩ := piece
    unfold mergeLoop at hp
    by_cases hb : bufText = []
    · rw [if_pos hb] at hp
      exact ih text heading p hp
    · rw [if_neg hb] at hp
      by_cases hlen : bufText.length < MIN_CHUNK_CHARS
      · rw [if_pos hlen] at hp
        exact ih _ _ p hp
      · rw [if_neg hlen] at hp
        cases hml : mergeLoop rest text heading with
        | nil =>
          rw [hml] at hp
          simp at hp
        | cons y ys =>
          rw [hml] at hp
          rw [List.dropLast_cons₂] at hp
          rcases List.mem_cons.mp hp with hp1 | hp1
          · subst hp1
            show MIN_CHUNK_CHARS ≤ bufText.length
            omega
          · rw [← hml] at hp1
            exact ih text heading p hp1

/-- A two-piece merge pass where the first piece already meets the minimum
flushes both pieces unchanged. -/
theorem mergePass_pair_keep (a b h1 h2 : List Char)
    (ha : MIN_CHUNK_CHARS ≤ a.length) (hb : b ≠ []) :
    mergePass [(a, h1), (b, h2)] = [(a, h1), (b, h2)] := by
  have hane : a ≠ [] := by
    intro h
    rw [h] at ha
    simp [MIN_CHUNK_CHARS] at ha
  have hlt : ¬ a.length < MIN_CHUNK_CHARS := by omega
  simp [mergePass, mergeLoop, hane, hlt, hb]

/-- A two-piece merge pass where the first piece is below the minimum
concatenates it with its successor, blank-line joined, keeping the
non-empty heading. -/
theorem mergePass_pair_merge (a b h1 h2 : List Char)
    (hane : a ≠ []) (ha : a.length < MIN_CHUNK_CHARS) :
    mergePass [(a, h1), (b, h2)] =
      [(a ++ '\n' :: '\n' :: b, if h1 = [] then h2 else h1)] := by
  have hne : a ++ '\n' :: '\n' :: b ≠ [] := by
    cases a with
    | nil => exact absurd rfl hane
    | cons x xs => simp
  simp [mergePass, mergeLoop, hane, ha, hne]

end Chunking

namespace Chunking

/-- Unfolding of one productive iteration of the hard-split loop. -/
theorem hardSplitLoop_step (text heading : List Char) (fuel start : Nat)
    (h : start < text.length) :
    hardSplitLoop text heading (fuel + 1) start =
      (if Py.strip ((text.drop start).take (nextWindowEnd text start - start)) = []
       then hardSplitLoop text heading fuel
         (max (start + 1) (nextWindowEnd text start - OVERLAP_CHARS))
       else
         (Py.strip ((text.drop start).take (nextWindowEnd text start - start)), heading) ::
           hardSplitLoop text heading fuel
             (max (start + 1) (nextWindowEnd text start - OVERLAP_CHARS))) := by
  simp [hardSplitLoop, h]

/-- The hard-split loop stops once `start` passes the end of the text. -/
theorem hardSplitLoop_stop (text heading : List Char) (fuel start : Nat)
    (h : ¬ start < text.length) :
    hardSplitLoop text heading fuel start = [] := by
  cases fuel with
  | zero => rfl
  | succ f => simp [hardSplitLoop, h]

/-- `rfindDesc` returns the highest matching index in `[a, top]`. -/
theorem rfindDesc_spec (text sub : List Char) (a : Nat) :
    ∀ top i, a ≤ i → i ≤ top →
      matchesAt text sub i = true →
      (∀ j, i < j → j ≤ top → matchesAt text sub j = false) →
      rfindDesc text sub a top = some i := by
  intro top
  induction top with
  | zero =>
    intro i ha hi hm _
    have hi0 : i = 0 := by omega
    subst hi0
    have ha0 : a = 0 := by omega
    simp [rfindDesc, ha0, hm]
  | succ t ih =>
    intro i ha hi hm hfalse
    by_cases hit : i = t + 1
    · subst hit
      have hcond : (decide (a ≤ t + 1) && matchesAt text sub (t + 1)) = true := by
        simp [ha, hm]
      simp [rfindDesc, hcond]
    · have hi2 : i ≤ t := by omega
      have hfn : matchesAt text sub (t + 1) = false :=
        hfalse (t + 1) (by omega) (by omega)
      have hcond : (decide (a ≤ t + 1) && matchesAt text sub (t + 1)) = false := by
        simp [hfn]
      rw [rfindDesc, hcond]
      simp only [if_false, Bool.false_eq_true]
      exact ih i ha hi2 hm (fun j hj1 hj2 => hfalse j hj1 (by omega))

end Chunking

namespace Py

/-- `strip` leaves a string alone when both ends are non-whitespace. -/
theorem strip_sandwich (x y : Char) (mid : List Char)
    (hx : x.isWhitespace = false) (hy : y.isWhitespace = false) :
    Py.strip (x :: (mid ++ [y])) = x :: (mid ++ [y]) := by
  have h2 : (x :: (mid ++ [y])).reverse = y :: (mid.reverse ++ [x]) := by
    rw [List.reverse_cons, List.reverse_append]
    rfl
  have h1 : List.dropWhile Char.isWhitespace (x :: (mid ++ [y])) =
      x :: (mid ++ [y]) := by
    rw [List.dropWhile_cons, if_neg (by simp [hx])]
  have h3 : List.dropWhile Char.isWhitespace ((x :: (mid ++ [y])).reverse) =
      (x :: (mid ++ [y])).reverse := by
    rw [h2, List.dropWhile_cons, if_neg (by simp [hy]), ← h2]
  unfold Py.strip
  rw [h1, h3, List.reverse_reverse]

end Py

/-- The oversized first piece of the hard-split demonstration: 1996 `a`s, a
sentence boundary, 52 more `a`s — 2050 characters. -/
def splitDemoA : List Char :=
  List.replicate 1996 'a' ++ '.' :: ' ' :: List.replicate 52 'a'

/-- The well-sized second piece: 300 `b`s. -/
def splitDemoB : List Char := List.replicate 300 'b'

/-- First window emitted by `_hard_split` on `splitDemoA` (1997 chars). -/
def splitDemoOut1 : List Char := List.replicate 1996 'a' ++ ['.']

/-- Second window emitted by `_hard_split` on `splitDemoA` (153 chars). -/
def splitDemoOut2 : List Char :=
  List.replicate 99 'a' ++ '.' :: ' ' :: List.replicate 52 'a'

theorem splitDemoA_length : splitDemoA.length = 2050 := by
  unfold splitDemoA
  rw [List.length_append, List.length_replicate, List.length_cons,
    List.length_cons, List.length_replicate]

theorem splitDemoB_length : splitDemoB.length = 300 := by
  unfold splitDemoB
  rw [List.length_replicate]

theorem splitDemoB_ne : splitDemoB ≠ [] := by
  unfold splitDemoB
  rw [Ne, List.replicate_eq_nil_iff]
  omega

theorem splitDemoOut1_length : splitDemoOut1.length = 1997 := by
  unfold splitDemoOut1
  rw [List.length_append, List.length_replicate]
  rfl

theorem splitDemoOut2_length : splitDemoOut2.length = 153 := by
  unfold splitDemoOut2
  rw [List.length_append, List.length_replicate, List.length_cons,
    List.length_cons, List.length_replicate]

theorem splitDemo_drop_1996 :
    splitDemoA.drop 1996 = '.' :: ' ' :: List.replicate 52 'a' := by
  unfold splitDemoA
  nth_rewrite 1 [show (1996 : Nat) = (List.replicate 1996 'a').length + 0 by
    rw [List.length_replicate]]
  rw [List.drop_append]
  rfl

theorem splitDemo_drop_1997 :
    splitDemoA.drop 1997 = ' ' :: List.replicate 52 'a' := by
  unfold splitDemoA
  nth_rewrite 1 [show (1997 : Nat) = (List.replicate 1996 'a').length + 1 by
    rw [List.length_replicate]]
  rw [List.drop_append]
  rfl

theorem splitDemo_drop_1998 : splitDemoA.drop 1998 = List.replicate 52 'a' := by
  unfold splitDemoA
  nth_rewrite 1 [show (1998 : Nat) = (List.replicate 1996 'a').length + 2 by
    rw [List.length_replicate]]
  rw [List.drop_append]
  rfl

theorem splitDemo_matches_1996 :
    Chunking.matchesAt splitDemoA ['.', ' '] 1996 = true := by
  unfold Chunking.matchesAt
  rw [splitDemo_drop_1996]
  rfl

theorem splitDemo_matches_1997 :
    Chunking.matchesAt splitDemoA ['.', ' '] 1997 = false := by
  unfold Chunking.matchesAt
  rw [splitDemo_drop_1997]
  rw [show (52 : Nat) = 51 + 1 from rfl, List.replicate_succ]
  rfl

theorem splitDemo_matches_1998 :
    Chunking.matchesAt splitDemoA ['.', ' '] 1998 = false := by
  unfold Chunking.matchesAt
  rw [splitDemo_drop_1998]
  rw [List.take_replicate]
  decide

theorem splitDemo_rfind :
    Chunking.pyRfind splitDemoA ['.', ' '] 0 2000 = Int.ofNat 1996 := by
  unfold Chunking.pyRfind
  rw [if_pos (by decide)]
  have hdesc : Chunking.rfindDesc splitDemoA ['.', ' '] 0 (2000 - ['.', ' '].length)
      = some 1996 := by
    rw [show (2000 - ['.', ' '].length : Nat) = 1998 from rfl]
    refine Chunking.rfindDesc_spec splitDemoA ['.', ' '] 0 1998 1996
      (by omega) (by omega) splitDemo_matches_1996 ?_
    intro j hj1 hj2
    have hj : j = 1997 ∨ j = 1998 := by omega
    rcases hj with rfl | rfl
    · exact splitDemo_matches_1997
    · exact splitDemo_matches_1998
  rw [hdesc]

theorem splitDemo_nwe_0 : Chunking.nextWindowEnd splitDemoA 0 = 1997 := by
  unfold Chunking.nextWindowEnd
  rw [show (0 + Chunking.MAX_CHUNK_CHARS : Nat) = 2000 from rfl]
  rw [if_pos (by rw [splitDemoA_length]; omega)]
  rw [splitDemo_rfind]
  simp [Chunking.MIN_CHUNK_CHARS]

theorem splitDemo_nwe_1897 : Chunking.nextWindowEnd splitDemoA 1897 = 3897 := by
  unfold Chunking.nextWindowEnd
  rw [show (1897 + Chunking.MAX_CHUNK_CHARS : Nat) = 3897 from rfl]
  rw [if_neg (by rw [splitDemoA_length]; omega)]

theorem splitDemo_take_1997 : splitDemoA.take 1997 = splitDemoOut1 := by
  unfold splitDemoA splitDemoOut1
  nth_rewrite 1 [show (1997 : Nat) = (List.replicate 1996 'a').length + 1 by
    rw [List.length_replicate]]
  rw [List.take_append]
  rfl

theorem splitDemo_drop_1897 : splitDemoA.drop 1897 = splitDemoOut2 := by
  unfold splitDemoA splitDemoOut2
  rw [List.drop_append_of_le_length (by rw [List.length_replicate]; omega)]
  rw [List.drop_replicate]

theorem splitDemoOut1_strip : Py.strip splitDemoOut1 = splitDemoOut1 := by
  unfold splitDemoOut1
  rw [show (1996 : Nat) = 1995 + 1 from rfl, List.replicate_succ, List.cons_append]
  exact Py.strip_sandwich 'a' '.' (List.replicate 1995 'a') (by decide) (by decide)

theorem splitDemoOut2_shape :
    splitDemoOut2 =
      'a' :: ((List.replicate 98 'a' ++ '.' :: ' ' :: List.replicate 51 'a') ++ ['a']) := by
  unfold splitDemoOut2
  rw [show (99 : Nat) = 98 + 1 from rfl, List.replicate_succ]
  rw [show (52 : Nat) = 51 + 1 from rfl, List.replicate_succ' 51 'a']
  simp only [List.cons_append, List.append_assoc]

theorem splitDemoOut2_strip : Py.strip splitDemoOut2 = splitDemoOut2 := by
  rw [splitDemoOut2_shape]
  exact Py.strip_sandwich 'a' 'a' _ (by decide) (by decide)

theorem splitDemoOut1_ne : splitDemoOut1 ≠ [] := by
  intro h
  have hl := congrArg List.length h
  rw [splitDemoOut1_length] at hl
  simp at hl

theorem splitDemoOut2_ne : splitDemoOut2 ≠ [] := by
  intro h
  have hl := congrArg List.length h
  rw [splitDemoOut2_length] at hl
  simp at hl

theorem splitDemo_hardSplit :
    Chunking.hardSplit splitDemoA [] =
      [(splitDemoOut1, []), (splitDemoOut2, [])] := by
  unfold Chunking.hardSplit
  rw [splitDemoA_length]
  rw [show (2050 : Nat) = 2049 + 1 from rfl]
  rw [Chunking.hardSplitLoop_step _ _ _ _ (by rw [splitDemoA_length]; omega)]
  rw [splitDemo_nwe_0]
  rw [show (1997 - 0 : Nat) = 1997 from rfl, List.drop_zero, splitDemo_take_1997,
    splitDemoOut1_strip]
  rw [if_neg splitDemoOut1_ne]
  rw [show (max (0 + 1) (1997 - Chunking.OVERLAP_CHARS) : Nat) = 1897 from rfl]
  rw [show (2049 : Nat) = 2048 + 1 from rfl]
  rw [Chunking.hardSplitLoop_step _ _ _ _ (by rw [splitDemoA_length]; omega)]
  rw [splitDemo_nwe_1897]
  rw [show (3897 - 1897 : Nat) = 2000 from rfl, splitDemo_drop_1897]
  rw [List.take_of_length_le (by rw [splitDemoOut2_length]; omega), splitDemoOut2_strip]
  rw [if_neg splitDemoOut2_ne]
  rw [show (max (1897 + 1) (3897 - Chunking.OVERLAP_CHARS) : Nat) = 3797 from rfl]
  rw [Chunking.hardSplitLoop_stop _ _ _ _ (by rw [splitDemoA_length]; omega)]

theorem splitDemo_enforce :
    Chunking.enforceSizeLimits [(splitDemoA, []), (splitDemoB, [])] =
      [(splitDemoOut1, []), (splitDemoOut2, []), (splitDemoB, [])] := by
  unfold Chunking.enforceSizeLimits
  rw [Chunking.mergePass_pair_keep _ _ _ _
    (by rw [splitDemoA_length]; decide) splitDemoB_ne]
  simp only [List.map_cons, List.map_nil]
  rw [if_neg (by rw [splitDemoA_length]; decide)]
  rw [if_pos (by rw [splitDemoB_length]; decide)]
  rw [splitDemo_hardSplit]
  rfl

/-- C9 amended: in the merge pass (pass 1 of `_enforce_size_limits`), a
buffered chunk shorter than MIN = 200 characters is concatenated with its
successor (blank-line joined, the non-empty heading preserved), so in the
merge-pass output no chunk other than possibly the last is shorter than
200; a chunk of exactly 200 characters is kept unmerged and a chunk of
199 characters is merged. The subsequent hard-split pass can still emit
trailing windows shorter than 200 (see the counterexample), so the
invariant holds of the merge pass, not of the final sized output. -/
theorem chunking_merge_pass_min_size
    (chunks : List Chunking.Piece) (a b h1 h2 : List Char) :
    (∀ p ∈ (Chunking.mergePass chunks).dropLast,
        Chunking.MIN_CHUNK_CHARS ≤ p.1.length)
    ∧ (Chunking.MIN_CHUNK_CHARS ≤ a.length → b ≠ [] →
        Chunking.mergePass [(a, h1), (b, h2)] = [(a, h1), (b, h2)])
    ∧ (a ≠ [] → a.length < Chunking.MIN_CHUNK_CHARS →
        Chunking.mergePass [(a, h1), (b, h2)] =
          [(a ++ '\n' :: '\n' :: b, if h1 = [] then h2 else h1)]) :=
  ⟨Chunking.mergeLoop_dropLast_min chunks [] [],
   fun ha hb => Chunking.mergePass_pair_keep a b h1 h2 ha hb,
   fun hane ha => Chunking.mergePass_pair_merge a b h1 h2 hane ha⟩

/-- Witness for the amended C9: a 200-character chunk is kept unmerged next
to its successor; a 199-character chunk is merged into it with the blank
line separator. -/
theorem chunking_merge_pass_min_size_witness :
    Chunking.mergePass
        [(List.replicate 200 'x', []), (List.replicate 300 'y', [])] =
      [(List.replicate 200 'x', []), (List.replicate 300 'y', [])]
    ∧ Chunking.mergePass
        [(List.replicate 199 'x', []), (List.replicate 300 'y', [])] =
      [(List.replicate 199 'x' ++ '\n' :: '\n' :: List.replicate 300 'y', [])] :=
  ⟨(chunking_merge_pass_min_size [] (List.replicate 200 'x')
      (List.replicate 300 'y') [] []).2.1
      (by rw [List.length_replicate]; decide)
      (by rw [Ne, List.replicate_eq_nil_iff]; omega),
   (chunking_merge_pass_min_size [] (List.replicate 199 'x')
      (List.replicate 300 'y') [] []).2.2
      (by rw [Ne, List.replicate_eq_nil_iff]; omega)
      (by rw [List.length_replicate]; decide)⟩

/-- C9 as stated is false of the size-enforcement output: on the two input
pieces `splitDemoA` (2050 chars, sentence boundary at index 1996) and
`splitDemoB` (300 chars), `_enforce_size_limits` returns three chunks of
lengths 1997, 153 and 300 — the middle chunk has fewer than 200
characters and is not the last. -/
theorem chunking_short_nonfinal_chunk_counterexample :
    ((Chunking.enforceSizeLimits [(splitDemoA, []), (splitDemoB, [])]).map
        (fun p => p.1.length)) = [1997, 153, 300]
    ∧ ¬ (∀ p ∈ (Chunking.enforceSizeLimits
          [(splitDemoA, []), (splitDemoB, [])]).dropLast,
        Chunking.MIN_CHUNK_CHARS ≤ p.1.length) := by
  constructor
  · rw [splitDemo_enforce]
    simp only [List.map_cons, List.map_nil]
    rw [splitDemoOut1_length, splitDemoOut2_length, splitDemoB_length]
  · intro hall
    have hmem : (splitDemoOut2, ([] : List Char)) ∈
        (Chunking.enforceSizeLimits
          [(splitDemoA, []), (splitDemoB, [])]).dropLast := by
      rw [splitDemo_enforce]
      simp
    have hge := hall _ hmem
    have h153 : (splitDemoOut2, ([] : List Char)).1.length = 153 :=
      splitDemoOut2_length
    rw [h153] at hge
    simp [Chunking.MIN_CHUNK_CHARS] at hge

namespace Chunking

/-- Every assembled chunk carries the deterministic id and its position. -/
theorem chunkFromRaw_get_id (raw : List Piece) (fullText : List Char)
    (tenantId documentId sourceKey : String) (pageMap : List (Nat × Nat))
    (i : Nat)
    (h : i < (chunkFromRaw raw fullText tenantId documentId sourceKey pageMap).length) :
    ((chunkFromRaw raw fullText tenantId documentId sourceKey pageMap).get
        ⟨i, h⟩).chunk_id = makeChunkId tenantId documentId i
    ∧ ((chunkFromRaw raw fullText tenantId documentId sourceKey pageMap).get
        ⟨i, h⟩).chunk_index = i := by
  have hl : i < (enforceSizeLimits raw).length := by
    have h2 := h
    unfold chunkFromRaw at h2
    rwa [buildChunkResults_length] at h2
  unfold chunkFromRaw
  rw [buildChunkResults_get fullText tenantId documentId sourceKey pageMap
    (enforceSizeLimits raw) 0 i (by unfold chunkFromRaw at h; exact h) hl]
  constructor
  · simp [mkChunkResult, Nat.zero_add]
  · simp [mkChunkResult, Nat.zero_add]

end Chunking

/-- C3: for every tenant id, document id and chunk index, the chunk's
vector id produced by the chunker equals the first 32 hex characters of
`sha256("tenant_id:document_id:chunk_index")` and its `chunk_index` field
is its position; consequently the id depends only on those three values —
re-running the chunker over any text for the same (tenant, document)
yields identical ids position by position. -/
theorem chunker_vector_ids_deterministic
    (raw : List Chunking.Piece) (fullText : List Char)
    (tenantId documentId sourceKey : String) (pageMap : List (Nat × Nat)) :
    (∀ i (h : i < (Chunking.chunkFromRaw raw fullText tenantId documentId
        sourceKey pageMap).length),
      ((Chunking.chunkFromRaw raw fullText tenantId documentId sourceKey
          pageMap).get ⟨i, h⟩).chunk_id
        = String.mk ((Sha256.sha256Hex (Sha256.encodeUtf8
            (tenantId.data ++ ':' :: documentId.data ++ ':' ::
              (Nat.repr i).data))).take 32)
      ∧ ((Chunking.chunkFromRaw raw fullText tenantId documentId sourceKey
          pageMap).get ⟨i, h⟩).chunk_index = i)
    ∧ (∀ (raw2 : List Chunking.Piece) (fullText2 : List Char)
        (sourceKey2 : String) (pageMap2 : List (Nat × Nat)) (i : Nat)
        (ha : i < (Chunking.chunkFromRaw raw fullText tenantId documentId
          sourceKey pageMap).length)
        (hb : i < (Chunking.chunkFromRaw raw2 fullText2 tenantId documentId
          sourceKey2 pageMap2).length),
        ((Chunking.chunkFromRaw raw fullText tenantId documentId sourceKey
            pageMap).get ⟨i, ha⟩).chunk_id
          = ((Chunking.chunkFromRaw raw2 fullText2 tenantId documentId
              sourceKey2 pageMap2).get ⟨i, hb⟩).chunk_id) := by
  constructor
  · intro i h
    have hid := Chunking.chunkFromRaw_get_id raw fullText tenantId documentId
      sourceKey pageMap i h
    exact ⟨hid.1, hid.2⟩
  · intro raw2 fullText2 sourceKey2 pageMap2 i ha hb
    rw [(Chunking.chunkFromRaw_get_id raw fullText tenantId documentId
        sourceKey pageMap i ha).1,
      (Chunking.chunkFromRaw_get_id raw2 fullText2 tenantId documentId
        sourceKey2 pageMap2 i hb).1]

/-- Witness for C3: a one-piece run for tenant `t1`, document `d1` yields
the chunk id `sha256("t1:d1:0")[0:32]`, the concrete 32-hex-character
string below (matching `hashlib.sha256`). -/
theorem chunker_vector_ids_deterministic_witness :
    ((Chunking.chunkFromRaw [("Hello tiny chunk.".data, "HEADING ONE".data)]
        "Hello tiny chunk.".data "t1" "d1" "k" []).get
      ⟨0, by decide⟩).chunk_id = "c9cb09d047c99f631f2484e8062edc37" := by
  have h := (chunker_vector_ids_deterministic
    [("Hello tiny chunk.".data, "HEADING ONE".data)]
    "Hello tiny chunk.".data "t1" "d1" "k" []).1 0 (by decide)
  exact h.1.trans (by decide)
